import Mathlib

/-!
Verification of the room-service ordering agent.

Shallow embedding of the repository `room_service` package:
* `models/general.py`, `models/menu.py`, `models/order.py`,
  `models/order_validation.py`, `models/state.py` — data model;
* `db/orders.py` — order-id counter;
* `util.py` — `partition`, `calculate_order_details`;
* `tools/order_validator.py`, `tools/order_placer.py` — the two tools;
* `services/menu_suggestions.py` — suggestion enrichment;
* `external/room_service_api.py` — the fulfillment gateway;
* `agent/nodes.py` — the tool-dispatch loop.

Modelling conventions:
* Python `float` menu prices are modelled exactly in integer cents, so the
  2-decimal currency formatting `f"${total:.2f}"` is exact arithmetic.
* Fallible Python code (`assert`, `raise`, pydantic validators) is modelled
  with `Except String` / explicit error values.
* The menu catalog `db/menu.py` (`MENU_ITEMS`, a name-keyed dict) is data,
  not logic; it is a parameter `MENU_ITEMS : Menu` of every definition that
  reads it, and theorems quantify over it.
* The process-global `ORDER_COUNTER` is threaded explicitly.
-/

namespace RoomService

/-- `models/general.py` — `Status(str, Enum)` with values "Success"/"Error". -/
inductive Status where
  | SUCCESS
  | ERROR
deriving DecidableEq, Repr

/-- The underlying string value of the `str` enum member. -/
def Status.value : Status → String
  | .SUCCESS => "Success"
  | .ERROR => "Error"

/-- `models/menu.py` — `MenuItem`. `price` (a Python float, ≥ 0 dollars) is
modelled exactly as an integer number of cents `priceCents`. -/
structure MenuItem where
  name : String
  priceCents : Nat
  category : String
  modifications_allowed : Bool := false
  description : String := ""
  available_modifications : List String := []
  allergens : List String := []
  preparation_time : Nat
  available_quantity : Nat
deriving DecidableEq, Repr

/-- `db/menu.py` — `MENU_ITEMS` is a dict keyed by item name; `MENU_ITEMS.get`
is modelled as a lookup function (the concrete catalog is plain data). -/
def Menu : Type := String → Option MenuItem

/-- `models/order.py` — `OrderItem`. -/
structure OrderItem where
  name : String
  quantity : Nat
  modifications : List String := []
deriving DecidableEq, Repr

/-- `models/order.py` — `Order`. The pydantic field constraint
`room: int = Field(ge=100, le=399)` is carried as hypotheses in theorems. -/
structure Order where
  room : Int
  items : List OrderItem
deriving DecidableEq, Repr

/-! ### Decimal rendering (`f"{n:04d}"`, `f"${x:.2f}"`)

Python renders nonnegative integers in standard decimal notation.  We embed
that rendering with an explicit fuel argument (fuel `n` is plenty: the digit
count of `n` never exceeds `n` for `n ≥ 1`), so it reduces by `decide`/`rfl`. -/

/-- Little-endian decimal digits of `n`, with fuel. -/
def natDigitsRevAux : Nat → Nat → List Nat
  | 0, _ => []
  | _ + 1, 0 => []
  | fuel + 1, n + 1 => ((n + 1) % 10) :: natDigitsRevAux fuel ((n + 1) / 10)

/-- Little-endian decimal digits of `n` (empty for 0). -/
def natDigitsRev (n : Nat) : List Nat :=
  natDigitsRevAux n n

/-- The decimal digit characters. -/
def digitChar : Nat → Char
  | 0 => '0' | 1 => '1' | 2 => '2' | 3 => '3' | 4 => '4'
  | 5 => '5' | 6 => '6' | 7 => '7' | 8 => '8' | 9 => '9'
  | _ => '?'

/-- Inverse of `digitChar` on decimal digits. -/
def charDigit : Char → Nat
  | '0' => 0 | '1' => 1 | '2' => 2 | '3' => 3 | '4' => 4
  | '5' => 5 | '6' => 6 | '7' => 7 | '8' => 8 | '9' => 9
  | _ => 0

/-- Standard decimal rendering of a nonnegative integer, as Python prints it. -/
def natDecimalRepr (n : Nat) : String :=
  if n = 0 then "0" else String.mk (((natDigitsRev n).reverse).map digitChar)

/-- Zero left-padding to width `w`: the `0` fill of Python's `{:04d}` /
`{:02d}` format specs. -/
def padZeros (w : Nat) (s : String) : String :=
  String.mk (List.replicate (w - s.length) '0') ++ s

/-- `db/orders.py` — `get_order_id`: increment the process-global counter and
render `f"ORDER-{ORDER_COUNTER:04d}"`.  The global is threaded explicitly:
input the current counter, output the new counter and the id. -/
def get_order_id (ORDER_COUNTER : Nat) : Nat × String :=
  let c := ORDER_COUNTER + 1
  (c, "ORDER-" ++ padZeros 4 (natDecimalRepr c))

/-- Value of a little-endian digit list. -/
def digitsValRev : List Nat → Nat
  | [] => 0
  | d :: ds => d + 10 * digitsValRev ds

/-- Value of a big-endian digit-character list (leading zeros are harmless). -/
def decimalVal (cs : List Char) : Nat :=
  cs.foldl (fun acc c => 10 * acc + charDigit c) 0

/-- The numeric part of an order id: the decimal value of what follows the
6-character prefix "ORDER-". -/
def numericPart (id : String) : Nat :=
  decimalVal (id.data.drop 6)

/-! ### `models/order_validation.py` -/

/-- `ValidItem`. -/
structure ValidItem where
  name : String
  valid_modifications : List String := []
  valid_quantity : Nat
deriving DecidableEq, Repr

/-- `InvalidItemReason` (the enum's string values are irrelevant here). -/
inductive InvalidItemReason where
  | NOT_ON_MENU
  | OUT_OF_STOCK
  | MODIFICATIONS_NOT_ALLOWED
  | INVALID_MODIFICATIONS
deriving DecidableEq, Repr

/-- `InvalidItem`.  The `Optional[...] = Field(default_factory=list)` fields
default to `some []`, the `Optional[...] = Field(default=None)` ones to
`none`, exactly as pydantic fills them. -/
structure InvalidItem where
  name : String
  valid_modifications : Option (List String) := some []
  valid_quantity : Option Nat := none
  reason : InvalidItemReason
  invalid_modifications : Option (List String) := some []
  invalid_quantity : Option Nat := none
deriving DecidableEq, Repr

/-- `SingleSuggestion`. -/
structure SingleSuggestion where
  original_item : InvalidItem
  suggestion : String
  fixed_item : Option OrderItem := none
deriving DecidableEq, Repr

/-- `ValidationDetails` (the success-shaped TypedDict): `valid_room` is a
required key, and the dict has no `invalid_room` key at all. -/
structure ValidationDetails where
  valid_room : String
  valid_items : List ValidItem
deriving DecidableEq, Repr

/-- `ValidationError` (the error-shaped TypedDict). -/
structure ValidationError where
  valid_room : Option String
  valid_items : List ValidItem
  invalid_room : Option String
  invalid_items : List InvalidItem
  suggestions : Option (List SingleSuggestion)
deriving DecidableEq, Repr

/-- The union type `ValidationDetails | ValidationError` of the
`OrderValidationResult.details` field. -/
inductive ValidationDetailsOrError where
  | success (d : ValidationDetails)
  | error (d : ValidationError)
deriving DecidableEq, Repr

/-- `v.get('valid_room')` on either dict shape. -/
def ValidationDetailsOrError.get_valid_room : ValidationDetailsOrError → Option String
  | .success d => some d.valid_room
  | .error d => d.valid_room

/-- `v.get('invalid_room')` on either dict shape; the success-shaped dict has
no such key, so `.get` yields `None`. -/
def ValidationDetailsOrError.get_invalid_room : ValidationDetailsOrError → Option String
  | .success _ => none
  | .error d => d.invalid_room

/-- `OrderValidationResult` (fields only; construction goes through
`mkOrderValidationResult`, which runs the pydantic `field_validator`). -/
structure OrderValidationResult where
  status : Status
  response : String
  details : ValidationDetailsOrError
  total_price : Option String := none
  preparation_time : Option Nat := none
deriving DecidableEq, Repr

/-- Constructing an `OrderValidationResult` runs the
`validate_room_fields` `field_validator` on `details`: raise if both
`valid_room` and `invalid_room` are present, raise if neither is. -/
def mkOrderValidationResult (status : Status) (response : String)
    (details : ValidationDetailsOrError) (total_price : Option String)
    (preparation_time : Option Nat) : Except String OrderValidationResult :=
  if details.get_valid_room.isSome && details.get_invalid_room.isSome then
    .error "Cannot have both valid_room and invalid_room"
  else if details.get_valid_room.isNone && details.get_invalid_room.isNone then
    .error "Must have either valid_room or invalid_room"
  else
    .ok { status := status, response := response, details := details,
          total_price := total_price, preparation_time := preparation_time }

/-! ### `util.py` -/

/-- `util.partition`: split preserving order, predicate-satisfying elements
first component. -/
def partition {α : Type} (pred : α → Bool) : List α → List α × List α
  | [] => ([], [])
  | x :: xs =>
    let (true_list, false_list) := partition pred xs
    if pred x then (x :: true_list, false_list) else (true_list, x :: false_list)

/-! ### `tools/order_validator.py` -/

/-- `ItemValidationResult` — the NamedTuple
`(is_valid, valid_item, invalid_item)`. -/
structure ItemValidationResult where
  is_valid : Bool
  valid_item : Option ValidItem
  invalid_item : Option InvalidItem
deriving DecidableEq, Repr

/-- `OrderValidatorTool._validate_room`.  The out-of-range `assert` is an
exception (`Except.error`), not a `False` verdict; `%` on a Python int with
positive modulus agrees with `Int.emod`. -/
def validate_room (room : Int) : Except String Bool :=
  if room ≥ 100 ∧ room ≤ 399 then
    let room_number_in_floor := room % 100
    .ok (decide (0 ≤ room_number_in_floor ∧ room_number_in_floor ≤ 20))
  else
    .error "Room number must be between 100 and 399. This should have been checked by the Order model, so something is wrong."

/-- `OrderValidatorTool._validate_item`: existence, stock, modification
policy, modification validity, in that order; first failure wins. -/
def validate_item (MENU_ITEMS : Menu) (item : OrderItem) : ItemValidationResult :=
  match MENU_ITEMS item.name with
  | none =>
    -- Item not in menu
    { is_valid := false, valid_item := none,
      invalid_item := some { name := item.name, reason := .NOT_ON_MENU } }
  | some menu_item =>
    if item.quantity > menu_item.available_quantity then
      -- Item not in stock
      let out_of_stock : InvalidItem :=
        { name := item.name,
          valid_quantity := some menu_item.available_quantity,
          invalid_quantity := some (item.quantity - menu_item.available_quantity),
          reason := .OUT_OF_STOCK }
      { is_valid := false, valid_item := none, invalid_item := some out_of_stock }
    else if item.modifications ≠ [] ∧ menu_item.modifications_allowed = false then
      -- Modifications requested on an item that allows none
      let mods_not_allowed : InvalidItem :=
        { name := item.name,
          valid_quantity := some item.quantity,
          valid_modifications := some [],
          invalid_modifications := some item.modifications,
          reason := .MODIFICATIONS_NOT_ALLOWED }
      { is_valid := false, valid_item := none, invalid_item := some mods_not_allowed }
    else
      let (valid_mods, invalid_mods) :=
        partition (fun x => decide (x ∈ menu_item.available_modifications)) item.modifications
      if item.modifications ≠ [] ∧ invalid_mods ≠ [] then
        -- Some requested modification is not whitelisted
        let invalid_modifications : InvalidItem :=
          { name := item.name,
            valid_quantity := some item.quantity,
            valid_modifications := some valid_mods,
            invalid_modifications := some invalid_mods,
            reason := .INVALID_MODIFICATIONS }
        { is_valid := false, valid_item := none, invalid_item := some invalid_modifications }
      else
        -- Item is valid
        let valid : ValidItem :=
          { name := item.name,
            valid_quantity := item.quantity,
            valid_modifications := item.modifications }
        { is_valid := true, valid_item := some valid, invalid_item := none }

/-! ### `util.calculate_order_details` -/

/-- The union argument `list[ValidItem] | list[OrderItem]` of
`calculate_order_details`; the `isinstance(item, ValidItem)` branch picks the
quantity field. -/
inductive PricedItem where
  | vi (v : ValidItem)
  | oi (o : OrderItem)
deriving DecidableEq, Repr

/-- `item.name` on either alternative. -/
def PricedItem.name : PricedItem → String
  | .vi v => v.name
  | .oi o => o.name

/-- `item.valid_quantity` for a `ValidItem`, `item.quantity` for an
`OrderItem` (the `isinstance` branch in the loop body). -/
def PricedItem.qty : PricedItem → Nat
  | .vi v => v.valid_quantity
  | .oi o => o.quantity

/-- `OrderDetails` NamedTuple; `total_price` is the already formatted string. -/
structure OrderDetails where
  total_price : String
  max_preparation_time : Nat
deriving DecidableEq, Repr

/-- The f-string `f"${total_price:.2f}"`, exact on cent amounts. -/
def format_currency (cents : Nat) : String :=
  "$" ++ natDecimalRepr (cents / 100) ++ "." ++ padZeros 2 (natDecimalRepr (cents % 100))

/-- The accumulator loop of `calculate_order_details`: running cent total and
running max preparation time; the per-item `assert item.name in MENU_ITEMS` is
an exception. -/
def calc_details_go (MENU_ITEMS : Menu) :
    List PricedItem → Nat → Nat → Except String (Nat × Nat)
  | [], total_price, max_prep_time => .ok (total_price, max_prep_time)
  | item :: rest, total_price, max_prep_time =>
    match MENU_ITEMS item.name with
    | none =>
      .error ("Item " ++ item.name ++ " not found in menu when calculating order details. Ensure valid_items only contained validated items.")
    | some menu_item =>
      calc_details_go MENU_ITEMS rest
        (total_price + menu_item.priceCents * item.qty)
        (max max_prep_time menu_item.preparation_time)

/-- `util.calculate_order_details`. -/
def calculate_order_details (MENU_ITEMS : Menu) (items : List PricedItem) :
    Except String OrderDetails := do
  let (total_price, max_prep_time) ← calc_details_go MENU_ITEMS items 0 0
  .ok { total_price := format_currency total_price, max_preparation_time := max_prep_time }

/-! ### `services/menu_suggestions.py` -/

/-- Outcome of the one structured reasoning-engine call
(`SUGGESTIONS_LLM.invoke`): a well-formed `SuggestionsResponse`, a reply that
is not a `SuggestionsResponse`, or a raised exception. -/
inductive EngineOutcome where
  | structured (suggestions : List SingleSuggestion)
  | malformed
  | raised (msg : String)
deriving DecidableEq, Repr

/-- The deterministic suggestion built for a MODIFICATIONS_NOT_ALLOWED item
whose `valid_quantity` is present: same item name, quantity preserved,
modifications cleared. -/
def deterministic_suggestion (invalid_item : InvalidItem) (q : Nat) : SingleSuggestion :=
  { original_item := invalid_item,
    suggestion := "This item does not allow modifications, so please remove the modifications.",
    fixed_item := some { name := invalid_item.name, quantity := q, modifications := [] } }

/-- `MenuSuggestionsService.get_menu_suggestions`.  Returns the Python return
value (`None` or a list) or a raised exception, paired with whether the
reasoning-engine capability was invoked.  Notes kept from the source:
`status.value == "success"` compares against the enum values "Success" /
"Error"; both TypedDict shapes are dicts, but only the error shape has an
`"invalid_items"` key; MODIFICATIONS_NOT_ALLOWED items lacking a
`valid_quantity` are skipped with a warning. -/
def get_menu_suggestions (engine : EngineOutcome)
    (validation_result : OrderValidationResult) :
    Except String (Option (List SingleSuggestion)) × Bool :=
  if validation_result.status.value == "success" then (.ok none, false)
  else
    match validation_result.details with
    | .success _ => (.ok none, false)
    | .error d =>
      if d.invalid_items.length = 0 then (.ok none, false)
      else
        let (mods_not_allowed, others) :=
          partition (fun item => item.reason == InvalidItemReason.MODIFICATIONS_NOT_ALLOWED)
            d.invalid_items
        let suggestions := mods_not_allowed.filterMap (fun invalid_item =>
          match invalid_item.valid_quantity with
          | none => none
          | some q => some (deterministic_suggestion invalid_item q))
        if others.length > 0 then
          match engine with
          | .raised msg => (.error msg, true)
          | .malformed => (.ok none, true)
          | .structured s => (.ok (some (suggestions ++ s)), true)
        else
          (.ok (some suggestions), false)

/-! ### `tools/order_validator.py` — the handlers and `_run` -/

/-- The state fields a validator/placer `Command(update=...)` touches
(the appended `ToolMessage` renders `validation_result` and is omitted). -/
structure StateUpdate where
  validated_order : Option Order
  validation_result : OrderValidationResult
deriving DecidableEq, Repr

/-- The summary fragment for one valid item inside the success response. -/
def item_summary (item : ValidItem) : String :=
  natDecimalRepr item.valid_quantity ++ " " ++ item.name ++
    (if item.valid_modifications ≠ [] then
      " with " ++ String.intercalate ", " item.valid_modifications
    else "")

/-- `OrderValidatorTool._handle_valid_order`. -/
def handle_valid_order (MENU_ITEMS : Menu) (order : Order)
    (valid_items : List ValidItem) : Except String StateUpdate := do
  let details_calc ← calculate_order_details MENU_ITEMS (valid_items.map PricedItem.vi)
  let total_price := details_calc.total_price
  let prep_time := details_calc.max_preparation_time
  let details : ValidationDetails :=
    { valid_room := toString order.room, valid_items := valid_items }
  let items_summary := String.intercalate ", " (valid_items.map item_summary)
  let response :=
    "The requested order of " ++ items_summary ++ ", will cost " ++ total_price ++
    " and can be prepared in approximately " ++ natDecimalRepr prep_time ++ " minutes. " ++
    "Inform the user of this and request their confirmation to place this order. " ++
    "When informing the user, remember to phrase this as a PENDING transaction, as this order has not yet been placed. " ++
    "The `order_placer` tool may be used to place this order after confirmation."
  let result ← mkOrderValidationResult .SUCCESS response (.success details)
    (some total_price) (some prep_time)
  .ok { validated_order := some order, validation_result := result }

/-- `OrderValidatorTool._handle_invalid_order`.  The `try/except` around the
suggestion call swallows a raised exception (suggestions stay `None`); a
returned non-empty list rebuilds the result with the suggestions attached. -/
def handle_invalid_order (engine : EngineOutcome) (is_valid_room : Bool)
    (order : Order) (valid_items : List ValidItem)
    (invalid_items : List InvalidItem) : Except String StateUpdate := do
  let details : ValidationError :=
    { valid_room := if is_valid_room then some (toString order.room) else none,
      invalid_room := if is_valid_room then none else some (toString order.room),
      valid_items := valid_items,
      invalid_items := invalid_items,
      suggestions := none }
  let error_messages :=
    (if is_valid_room then [] else ["Room number is invalid"]) ++
    (if invalid_items ≠ [] then ["Some requested items cannot be prepared"] else [])
  let error_resolutions :=
    (if is_valid_room then [] else ["clarify the room number"]) ++
    (if invalid_items ≠ [] then ["clarify the items they would like to order"] else [])
  let response :=
    String.intercalate ". " error_messages ++ ". Please ask the user to " ++
    String.intercalate "and " error_resolutions ++ "."
  let result ← mkOrderValidationResult .ERROR response (.error details) none none
  let suggestions : Option (List SingleSuggestion) :=
    match (get_menu_suggestions engine result).1 with
    | .error _ => none
    | .ok s => s
  match suggestions with
  | some s =>
    if s.length > 0 then do
      let details2 : ValidationError :=
        { valid_room := if is_valid_room then some (toString order.room) else none,
          invalid_room := if is_valid_room then none else some (toString order.room),
          valid_items := valid_items,
          invalid_items := invalid_items,
          suggestions := some s }
      let result2 ← mkOrderValidationResult .ERROR
        (response ++ " Your manager has provided a list of suggestions for remediating this order. Please see the `suggestions` field for more information and inform the user of these options.")
        (.error details2) none none
      .ok { validated_order := none, validation_result := result2 }
    else
      .ok { validated_order := none, validation_result := result }
  | none =>
    .ok { validated_order := none, validation_result := result }

/-- The item loop of `OrderValidatorTool._run`: split the per-item results
into valid and invalid lists; the two `assert ... is not None` checks are
exceptions. -/
def collect_items : List ItemValidationResult → Except String (List ValidItem × List InvalidItem)
  | [] => .ok ([], [])
  | r :: rest =>
    if r.is_valid then
      match r.valid_item with
      | none => .error "Valid item should not be None when is_valid is True"
      | some v => do
        let (vs, ivs) ← collect_items rest
        .ok (v :: vs, ivs)
    else
      match r.invalid_item with
      | none => .error "Invalid item should not be None when is_valid is False"
      | some iv => do
        let (vs, ivs) ← collect_items rest
        .ok (vs, iv :: ivs)

/-- `OrderValidatorTool._run`. -/
def OrderValidatorTool.run (MENU_ITEMS : Menu) (engine : EngineOutcome)
    (order : Order) : Except String StateUpdate := do
  let is_valid_room ← validate_room order.room
  let (valid_items, invalid_items) ←
    collect_items (order.items.map (validate_item MENU_ITEMS))
  if is_valid_room ∧ invalid_items = [] then
    handle_valid_order MENU_ITEMS order valid_items
  else
    handle_invalid_order engine is_valid_room order valid_items invalid_items

/-! ### `models/order.py` responses, `models/state.py`, `tools/order_placer.py` -/

/-- `GoodOrderResponse`. -/
structure GoodOrderResponse where
  status : Status := .SUCCESS
  message : String
  order_id : String
  estimated_delivery_time_minutes : Nat
  total_price : String
deriving DecidableEq, Repr

/-- `BadOrderResponse`. -/
structure BadOrderResponse where
  status : Status := .ERROR
  message : String
deriving DecidableEq, Repr

/-- `OrderResponse = GoodOrderResponse | BadOrderResponse`. -/
inductive OrderResponse where
  | good (g : GoodOrderResponse)
  | bad (b : BadOrderResponse)
deriving DecidableEq, Repr

/-- `models/state.py` — `OrderState` (the message history is irrelevant to
the placer and omitted). -/
structure OrderState where
  validated_order : Option Order
  validation_result : Option OrderValidationResult
  sequential_error_count : Nat
deriving DecidableEq, Repr

/-- `OrderPlacerTool._run`, with the gateway `api.place_order` as a
parameter.  Returns the `ToolMessage` content or the raised `ValueError`,
paired with whether the gateway was called.  Order and validation-result
objects are always truthy in Python, so `not validated_order or not
validation_result` is exactly a `None` test on each. -/
def OrderPlacerTool.run (gateway : Order → OrderResponse) (state : OrderState) :
    Except String String × Bool :=
  match state.validated_order, state.validation_result with
  | some validated_order, some _validation_result =>
    match gateway validated_order with
    | .good result =>
      (.ok ("Order placed successfully. Inform the user of their order ID " ++
        result.order_id ++ " and estimated delivery time of " ++
        natDecimalRepr result.estimated_delivery_time_minutes ++ " minutes."), true)
    | .bad result =>
      (.ok ("Order failed to place with error: " ++ result.message ++ "."), true)
  | _, _ =>
    (.error "Cannot place order - no validated order in state. Ensure the order has been validated with the `order_validator` tool.", false)

/-! ### `external/room_service_api.py` -/

/-- Constructor arguments of `RoomServiceAPI`. -/
structure RoomServiceAPIConfig where
  simulate_failures : Bool := false
  simulate_latency : Bool := true
deriving DecidableEq, Repr

/-- Outcomes of the two `random.random()` draws inside
`_simulate_failure_events` (`< 0.1` connection failure, `< 0.05` kitchen
overload). -/
structure FailureDraws where
  connection_failure : Bool
  kitchen_overload : Bool
deriving DecidableEq, Repr

/-- Python exceptions that can cross the `place_order` boundary. -/
inductive PyError where
  | typeError (msg : String)
  | assertionError (msg : String)
deriving DecidableEq, Repr

/-- The exception raised by `_simulate_failure_events`, when any. -/
inductive SimFailure where
  | roomServiceAPIError (msg : String)
  | kitchenOverloadedError (msg : String)
deriving DecidableEq, Repr

/-- `RoomServiceAPI._simulate_failure_events`. -/
def simulate_failure_events (cfg : RoomServiceAPIConfig) (draws : FailureDraws) :
    Option SimFailure :=
  if cfg.simulate_failures && draws.connection_failure then
    some (.roomServiceAPIError "Failed to connect to Room Service API")
  else if cfg.simulate_failures && draws.kitchen_overload then
    some (.kitchenOverloadedError "Kitchen is currently at capacity. Please try again in 15 minutes.")
  else none

/-- `RoomServiceAPI.place_order`.  The source guards the failure simulation
with `except RoomServiceAPIError | KitchenOverloadedError:`; in Python the
`|` builds a `types.UnionType`, which is not an exception class, so when a
simulated failure reaches that clause the interpreter raises
`TypeError("catching classes that do not inherit from BaseException is not
allowed")` instead of catching it — the failure is never folded into a
`BadOrderResponse`.  The embedding reflects that: a drawn failure event
yields an escaping `TypeError`.  On the non-failing path the order counter is
bumped and a `GoodOrderResponse` built; the returned `Nat` is the new
counter. -/
def RoomServiceAPI.place_order (MENU_ITEMS : Menu) (cfg : RoomServiceAPIConfig)
    (draws : FailureDraws) (ORDER_COUNTER : Nat) (order : Order) :
    Except PyError (OrderResponse × Nat) :=
  match simulate_failure_events cfg draws with
  | some _ =>
    .error (.typeError "catching classes that do not inherit from BaseException is not allowed")
  | none =>
    let (counter, order_id) := get_order_id ORDER_COUNTER
    match calculate_order_details MENU_ITEMS (order.items.map PricedItem.oi) with
    | .error msg => .error (.assertionError msg)
    | .ok order_details =>
      let response : GoodOrderResponse :=
        { message := "Order successfully placed",
          order_id := order_id,
          estimated_delivery_time_minutes := order_details.max_preparation_time,
          total_price := order_details.total_price }
      .ok (.good response, counter)

/-! ### `agent/nodes.py` — the tool-dispatch loop -/

/-- Outcome of one `tool.invoke(...)` inside `tool_node`: it returned a
`Command`, or it raised. -/
inductive ToolOutcome where
  | success
  | failure (msg : String)
deriving DecidableEq, Repr

/-- The message of the fatal `assert` in `tool_node`. -/
def unrecoverable_error_message : String :=
  "Unrecoverable error. Please contact the hotel reception and speak with a human representative."

/-- The `for tool_call in last_message.tool_calls` loop of `tool_node`,
tracking `state["sequential_error_count"]`: reset to 0 on success, increment
on failure, and `assert count < 3` right after the increment — reaching 3
terminates the dispatch with the contact-a-human directive.  Returns the
final counter of a non-terminated dispatch. -/
def tool_node_loop : Nat → List ToolOutcome → Except String Nat
  | count, [] => .ok count
  | _, .success :: rest => tool_node_loop 0 rest
  | count, .failure _ :: rest =>
    let count := count + 1
    if count < 3 then tool_node_loop count rest
    else .error unrecoverable_error_message

/-! ## Lemmas about decimal rendering and `get_order_id` -/

theorem digitsValRev_natDigitsRevAux : ∀ fuel n, n ≤ fuel →
    digitsValRev (natDigitsRevAux fuel n) = n := by
  intro fuel
  induction fuel with
  | zero =>
    intro n h
    match n, h with
    | 0, _ => rfl
  | succ f ih =>
    intro n h
    match n with
    | 0 => rfl
    | n + 1 =>
      have hd : (n + 1) / 10 ≤ f := by
        have := Nat.div_lt_self (Nat.succ_pos n) (by norm_num : 1 < 10)
        omega
      simp only [natDigitsRevAux, digitsValRev, ih _ hd]
      omega

theorem natDigitsRevAux_lt_ten : ∀ fuel n d, d ∈ natDigitsRevAux fuel n → d < 10 := by
  intro fuel
  induction fuel with
  | zero =>
    intro n d h
    simp [natDigitsRevAux] at h
  | succ f ih =>
    intro n d h
    match n with
    | 0 => simp [natDigitsRevAux] at h
    | n + 1 =>
      simp only [natDigitsRevAux, List.mem_cons] at h
      rcases h with h | h
      · omega
      · exact ih _ _ h

theorem charDigit_digitChar {d : Nat} (h : d < 10) : charDigit (digitChar d) = d := by
  interval_cases d <;> rfl

theorem decimalVal_foldl (ds : List Nat) (hd : ∀ d ∈ ds, d < 10) : ∀ a : Nat,
    List.foldl (fun acc c => 10 * acc + charDigit c) a ((ds.map digitChar).reverse) =
      a * 10 ^ ds.length + digitsValRev ds := by
  induction ds with
  | nil => intro a; simp [digitsValRev]
  | cons d ds ih =>
    intro a
    have hmem : ∀ x ∈ ds, x < 10 := fun x hx => hd x (List.mem_cons_of_mem _ hx)
    simp only [List.map_cons, List.reverse_cons, List.foldl_append, List.foldl_cons,
      List.foldl_nil, ih hmem a]
    rw [charDigit_digitChar (hd d (List.mem_cons_self _ _))]
    simp only [digitsValRev, List.length_cons, pow_succ]
    ring

theorem decimalVal_replicate_zero : ∀ (k : Nat) (cs : List Char),
    decimalVal (List.replicate k '0' ++ cs) = decimalVal cs := by
  intro k
  induction k with
  | zero => intro cs; rfl
  | succ k ih =>
    intro cs
    show List.foldl _ (10 * 0 + charDigit '0') _ = _
    exact ih cs

theorem decimalVal_natDecimalRepr (n : Nat) :
    decimalVal (natDecimalRepr n).data = n := by
  by_cases h : n = 0
  · subst h; rfl
  · have hdata : (natDecimalRepr n).data = ((natDigitsRev n).reverse).map digitChar := by
      simp [natDecimalRepr, h]
    rw [hdata, List.map_reverse]
    have := decimalVal_foldl (natDigitsRev n)
      (fun d hd => natDigitsRevAux_lt_ten n n d hd) 0
    unfold decimalVal
    rw [this]
    simp [natDigitsRev, digitsValRev_natDigitsRevAux n n (Nat.le_refl n)]

theorem data_get_order_id (c : Nat) :
    (get_order_id c).2.data =
      'O' :: 'R' :: 'D' :: 'E' :: 'R' :: '-' ::
        (List.replicate (4 - (natDecimalRepr (c + 1)).length) '0' ++
          (natDecimalRepr (c + 1)).data) := by
  show ("ORDER-" ++ padZeros 4 (natDecimalRepr (c + 1))).data = _
  rcases hrepr : natDecimalRepr (c + 1) with ⟨l⟩
  simp [padZeros, String.length, hrepr]

theorem numericPart_get_order_id (c : Nat) :
    numericPart (get_order_id c).2 = c + 1 := by
  unfold numericPart
  rw [data_get_order_id]
  simp only [List.drop_succ_cons, List.drop_zero]
  rw [decimalVal_replicate_zero, decimalVal_natDecimalRepr]

/-- C10: every call to `get_order_id` strictly increments the counter; the
returned id is "ORDER-" followed by the new counter value zero-padded to at
least 4 digits (its numeric part decodes to the counter); distinct calls give
distinct ids, and later calls have strictly larger numeric parts. -/
theorem get_order_id_monotone_unique (c c' : Nat) (h : c < c') :
    (get_order_id c).1 = c + 1 ∧
    numericPart (get_order_id c).2 = c + 1 ∧
    (get_order_id c).2.data.take 6 = "ORDER-".data ∧
    4 ≤ ((get_order_id c).2.data.drop 6).length ∧
    numericPart (get_order_id c).2 < numericPart (get_order_id c').2 ∧
    (get_order_id c).2 ≠ (get_order_id c').2 := by
  refine ⟨rfl, numericPart_get_order_id c, ?_, ?_, ?_, ?_⟩
  · rw [data_get_order_id]; rfl
  · rw [data_get_order_id]
    simp only [List.drop_succ_cons, List.drop_zero, List.length_append,
      List.length_replicate]
    have hlen : (natDecimalRepr (c + 1)).length = (natDecimalRepr (c + 1)).data.length := rfl
    omega
  · rw [numericPart_get_order_id, numericPart_get_order_id]; omega
  · intro heq
    have : numericPart (get_order_id c).2 = numericPart (get_order_id c').2 := by
      rw [heq]
    rw [numericPart_get_order_id, numericPart_get_order_id] at this
    omega

/-! ## The tool-dispatch loop (C2) -/

/-- Whether a tool outcome is a raised exception. -/
def ToolOutcome.isFailure : ToolOutcome → Bool
  | .failure _ => true
  | .success => false

/-- Length of the leading run of failures. -/
def lead_failures : List ToolOutcome → Nat
  | .failure _ :: rest => lead_failures rest + 1
  | _ => 0

/-- Spec-side predicate: the trace contains 3 consecutive failures
somewhere. -/
def has_three_consecutive_failures : List ToolOutcome → Bool
  | [] => false
  | o :: rest =>
    (o.isFailure && decide (2 ≤ lead_failures rest)) || has_three_consecutive_failures rest

theorem has_three_consecutive_of_lead : ∀ l : List ToolOutcome,
    3 ≤ lead_failures l → has_three_consecutive_failures l = true := by
  intro l h
  match l with
  | [] => simp [lead_failures] at h
  | .success :: rest => simp [lead_failures] at h
  | .failure m :: rest =>
    simp only [lead_failures] at h
    simp only [has_three_consecutive_failures, ToolOutcome.isFailure, Bool.true_and,
      Bool.or_eq_true, decide_eq_true_eq]
    left
    omega

theorem tool_node_loop_isOk : ∀ (outs : List ToolOutcome) (c : Nat), c < 3 →
    (tool_node_loop c outs).isOk =
      (!(has_three_consecutive_failures outs) && !(decide (3 - c ≤ lead_failures outs))) := by
  intro outs
  induction outs with
  | nil =>
    intro c hc
    simp only [tool_node_loop, Except.isOk, Except.toBool, has_three_consecutive_failures,
      lead_failures]
    have : ¬(3 - c ≤ 0) := by omega
    simp [this]
  | cons o rest ih =>
    intro c hc
    match o with
    | .success =>
      have h0 := ih 0 (by omega)
      simp only [tool_node_loop, h0, has_three_consecutive_failures, ToolOutcome.isFailure,
        Bool.false_and, Bool.false_or, lead_failures]
      have hno : ¬(3 - c ≤ 0) := by omega
      simp only [Nat.sub_zero, hno, decide_False, Bool.not_false, Bool.and_true]
      by_cases hl : 3 ≤ lead_failures rest
      · simp [has_three_consecutive_of_lead rest hl, hl]
      · simp [hl]
    | .failure m =>
      simp only [tool_node_loop]
      by_cases hlt : c + 1 < 3
      · rw [if_pos hlt, ih (c + 1) hlt]
        simp only [has_three_consecutive_failures, ToolOutcome.isFailure, Bool.true_and,
          lead_failures]
        have harith : (3 - (c + 1) ≤ lead_failures rest) ↔ (3 - c ≤ lead_failures rest + 1) := by
          omega
        by_cases h2 : 2 ≤ lead_failures rest
        · have h3c : 3 - (c + 1) ≤ lead_failures rest := by omega
          have h3c' : 3 - c ≤ lead_failures rest + 1 := by omega
          simp [h2, h3c, h3c']
          all_goals (intros; omega)
        · have hsub : (3 - (c + 1) ≤ lead_failures rest) ↔ (3 - c ≤ lead_failures rest + 1) :=
            harith
          simp only [h2, decide_False, Bool.and_false, Bool.false_or]
          by_cases h3 : 3 - (c + 1) ≤ lead_failures rest
          · simp [h3, hsub.mp h3]
            all_goals (intros; omega)
          · have hnot : ¬(3 - c ≤ lead_failures rest + 1) := fun hh => h3 (hsub.mpr hh)
            simp [h3, hnot]
            all_goals (intros; omega)
      · rw [if_neg hlt]
        have hc2 : c = 2 := by omega
        subst hc2
        simp only [Except.isOk, Except.toBool, lead_failures]
        have : 3 - 2 ≤ lead_failures rest + 1 := by omega
        simp [this]

theorem tool_node_loop_error_msg : ∀ (outs : List ToolOutcome) (c : Nat) (m : String),
    tool_node_loop c outs = .error m → m = unrecoverable_error_message := by
  intro outs
  induction outs with
  | nil =>
    intro c m h
    simp [tool_node_loop] at h
  | cons o rest ih =>
    intro c m h
    match o with
    | .success => exact ih 0 m h
    | .failure msg =>
      simp only [tool_node_loop] at h
      by_cases hlt : c + 1 < 3
      · rw [if_pos hlt] at h
        exact ih (c + 1) m h
      · rw [if_neg hlt] at h
        cases h
        rfl

/-- Final value of the consecutive-error counter (0 for a terminated run). -/
def final_count : Except String Nat → Nat
  | .ok c => c
  | .error _ => 0

theorem tool_node_loop_count_le : ∀ (outs : List ToolOutcome) (c : Nat), c ≤ 2 →
    final_count (tool_node_loop c outs) ≤ 2 := by
  intro outs
  induction outs with
  | nil => intro c hc; exact hc
  | cons o rest ih =>
    intro c hc
    match o with
    | .success => exact ih 0 (by omega)
    | .failure m =>
      simp only [tool_node_loop]
      by_cases hlt : c + 1 < 3
      · rw [if_pos hlt]
        exact ih (c + 1) (by omega)
      · rw [if_neg hlt]
        simp [final_count]

/-- C2: in the tool-dispatch loop started with counter 0, the session is
terminated fatally with the contact-a-human directive exactly when the trace
has 3 consecutive tool failures; any non-terminated run ends with counter at
most 2 (and every prefix of a trace is itself a trace, so every reachable
state obeys the bound); the trace failure-failure-success-failure-failure
does not trip the limit. -/
theorem tool_node_consecutive_error_policy (outcomes : List ToolOutcome) :
    ((tool_node_loop 0 outcomes = .error unrecoverable_error_message) ↔
      has_three_consecutive_failures outcomes = true) ∧
    final_count (tool_node_loop 0 outcomes) ≤ 2 ∧
    (tool_node_loop 0 [ToolOutcome.failure "e1", ToolOutcome.failure "e2",
      ToolOutcome.success, ToolOutcome.failure "e3", ToolOutcome.failure "e4"]).isOk = true := by
  refine ⟨?_, tool_node_loop_count_le outcomes 0 (by omega), by rfl⟩
  have hok := tool_node_loop_isOk outcomes 0 (by omega)
  have hlead : (!(decide (3 - 0 ≤ lead_failures outcomes))) = true ∨
      has_three_consecutive_failures outcomes = true := by
    by_cases hl : 3 ≤ lead_failures outcomes
    · right; exact has_three_consecutive_of_lead outcomes hl
    · left; simp; omega
  constructor
  · intro herr
    rw [herr] at hok
    simp only [Except.isOk, Except.toBool, Bool.false_eq, Bool.and_eq_false_iff,
      Bool.not_eq_false'] at hok
    rcases hok with hok | hok
    · simpa using hok
    · rcases hlead with hl | hl
      · rw [hok] at hl; simp at hl
      · exact hl
  · intro h3
    rcases hres : tool_node_loop 0 outcomes with m | v
    · rw [tool_node_loop_error_msg outcomes 0 m hres]
    · rw [hres] at hok
      simp only [Except.isOk, Except.toBool, h3, Bool.not_true, Bool.false_and] at hok
      exact absurd hok (by decide)

/-! ## Room validation (C6) and result construction (C8) -/

/-- C6: the room-validity predicate (the validator returning `True`) holds
iff `100 ≤ r ≤ 399` and `0 ≤ r % 100 ≤ 20`; 101, 320 and 100 are valid, 199
is reported invalid, and 425 does not satisfy the predicate (the out-of-range
assertion fires instead of returning a verdict). -/
theorem validate_room_spec (r : Int) :
    (validate_room r = .ok true ↔
      (100 ≤ r ∧ r ≤ 399 ∧ 0 ≤ r % 100 ∧ r % 100 ≤ 20)) ∧
    validate_room 101 = .ok true ∧
    validate_room 320 = .ok true ∧
    validate_room 100 = .ok true ∧
    validate_room 199 = .ok false ∧
    (validate_room 425).isOk = false := by
  refine ⟨?_, rfl, rfl, rfl, rfl, rfl⟩
  unfold validate_room
  by_cases h : r ≥ 100 ∧ r ≤ 399
  · rw [if_pos h]
    simp only [Except.ok.injEq, decide_eq_true_eq]
    constructor
    · intro hh
      exact ⟨h.1, h.2, hh.1, hh.2⟩
    · intro hh
      exact ⟨hh.2.2.1, hh.2.2.2⟩
  · rw [if_neg h]
    simp only [reduceCtorEq, false_iff, not_and, not_le]
    intro h100 h399
    exact absurd ⟨h100, h399⟩ h

/-- C8: constructing an `OrderValidationResult` succeeds iff the details
populate exactly one of `valid_room` / `invalid_room` (both or neither are
rejected by the `field_validator`), and a successful construction carries the
given fields verbatim. -/
theorem validation_result_room_exclusivity (status : Status) (response : String)
    (details : ValidationDetailsOrError) (total_price : Option String)
    (preparation_time : Option Nat) :
    ((mkOrderValidationResult status response details total_price preparation_time).isOk =
      (details.get_valid_room.isSome != details.get_invalid_room.isSome)) ∧
    (mkOrderValidationResult status response details total_price preparation_time =
        .ok { status := status, response := response, details := details,
              total_price := total_price, preparation_time := preparation_time } ∨
      (mkOrderValidationResult status response details total_price preparation_time).isOk
        = false) := by
  unfold mkOrderValidationResult
  cases hv : details.get_valid_room <;> cases hi : details.get_invalid_room <;>
    simp [Except.isOk, Except.toBool]

/-! ## Item validation (C5) -/

theorem partition_eq_filter {α : Type} (p : α → Bool) : ∀ l : List α,
    partition p l = (l.filter p, l.filter (fun x => !(p x))) := by
  intro l
  induction l with
  | nil => rfl
  | cons x xs ih =>
    by_cases hx : p x <;> simp [partition, ih, hx, List.filter_cons]

theorem filter_not_mem_ne_nil_iff (mods whitelist : List String) :
    (mods.filter (fun x => !(decide (x ∈ whitelist))) ≠ []) ↔
      ∃ x ∈ mods, x ∉ whitelist := by
  rw [ne_eq, List.filter_eq_nil_iff]
  push_neg
  simp

theorem validate_item_not_on_menu {m : Menu} {i : OrderItem}
    (hm : m i.name = none) :
    validate_item m i =
      { is_valid := false, valid_item := none,
        invalid_item := some { name := i.name, reason := .NOT_ON_MENU } } := by
  unfold validate_item
  rw [hm]

theorem validate_item_out_of_stock {m : Menu} {i : OrderItem} {mi : MenuItem}
    (hm : m i.name = some mi) (h : mi.available_quantity < i.quantity) :
    validate_item m i =
      { is_valid := false, valid_item := none,
        invalid_item := some
          { name := i.name,
            valid_quantity := some mi.available_quantity,
            invalid_quantity := some (i.quantity - mi.available_quantity),
            reason := .OUT_OF_STOCK } } := by
  unfold validate_item
  rw [hm]
  dsimp only
  rw [if_pos (by omega)]

theorem validate_item_mods_not_allowed {m : Menu} {i : OrderItem} {mi : MenuItem}
    (hm : m i.name = some mi) (hq : i.quantity ≤ mi.available_quantity)
    (hne : i.modifications ≠ []) (hall : mi.modifications_allowed = false) :
    validate_item m i =
      { is_valid := false, valid_item := none,
        invalid_item := some
          { name := i.name,
            valid_quantity := some i.quantity,
            valid_modifications := some [],
            invalid_modifications := some i.modifications,
            reason := .MODIFICATIONS_NOT_ALLOWED } } := by
  unfold validate_item
  rw [hm]
  dsimp only
  rw [if_neg (by omega), if_pos ⟨hne, hall⟩]

theorem validate_item_invalid_mods {m : Menu} {i : OrderItem} {mi : MenuItem}
    (hm : m i.name = some mi) (hq : i.quantity ≤ mi.available_quantity)
    (hne : i.modifications ≠ []) (hall : mi.modifications_allowed = true)
    (hbad : ∃ x ∈ i.modifications, x ∉ mi.available_modifications) :
    validate_item m i =
      { is_valid := false, valid_item := none,
        invalid_item := some
          { name := i.name,
            valid_quantity := some i.quantity,
            valid_modifications :=
              some (i.modifications.filter (fun x => decide (x ∈ mi.available_modifications))),
            invalid_modifications :=
              some (i.modifications.filter (fun x => !(decide (x ∈ mi.available_modifications)))),
            reason := .INVALID_MODIFICATIONS } } := by
  unfold validate_item
  rw [hm]
  dsimp only
  rw [partition_eq_filter]
  dsimp only
  rw [if_neg (by omega), if_neg (by simp [hall]),
    if_pos ⟨hne, (filter_not_mem_ne_nil_iff _ _).mpr hbad⟩]

theorem validate_item_valid {m : Menu} {i : OrderItem} {mi : MenuItem}
    (hm : m i.name = some mi) (hq : i.quantity ≤ mi.available_quantity)
    (hok : i.modifications = [] ∨ (mi.modifications_allowed = true ∧
      ∀ x ∈ i.modifications, x ∈ mi.available_modifications)) :
    validate_item m i =
      { is_valid := true,
        valid_item := some
          { name := i.name,
            valid_modifications := i.modifications,
            valid_quantity := i.quantity },
        invalid_item := none } := by
  unfold validate_item
  rw [hm]
  dsimp only
  rw [partition_eq_filter]
  dsimp only
  rw [if_neg (by omega)]
  rcases hok with hnil | ⟨hall, hmem⟩
  · rw [if_neg (by simp [hnil]), if_neg (by simp [hnil])]
  · rw [if_neg (by simp [hall])]
    have hfil : i.modifications.filter
        (fun x => !(decide (x ∈ mi.available_modifications))) = [] := by
      rw [List.filter_eq_nil_iff]
      intro a ha
      simp [hmem a ha]
    rw [if_neg (by simp [hfil])]

/-- The per-item verdict's reason, when the item is invalid. -/
def invalid_reason (MENU_ITEMS : Menu) (item : OrderItem) : Option InvalidItemReason :=
  (validate_item MENU_ITEMS item).invalid_item.map InvalidItem.reason

/-- C5: item validation yields exactly one verdict — valid, or a single
invalidity reason — with the checks applied in the order existence → stock →
modification-policy → modification-validity, the first failing check winning.
In particular an item absent from the catalog is NOT_ON_MENU whatever its
quantity (so never OUT_OF_STOCK, which requires a catalog entry). -/
theorem validate_item_classification (MENU_ITEMS : Menu) (item : OrderItem) :
    ((validate_item MENU_ITEMS item).is_valid = true ↔
      (validate_item MENU_ITEMS item).invalid_item = none) ∧
    (invalid_reason MENU_ITEMS item = some .NOT_ON_MENU ↔ MENU_ITEMS item.name = none) ∧
    (invalid_reason MENU_ITEMS item = some .OUT_OF_STOCK ↔
      ∃ mi, MENU_ITEMS item.name = some mi ∧ mi.available_quantity < item.quantity) ∧
    (invalid_reason MENU_ITEMS item = some .MODIFICATIONS_NOT_ALLOWED ↔
      ∃ mi, MENU_ITEMS item.name = some mi ∧ item.quantity ≤ mi.available_quantity ∧
        item.modifications ≠ [] ∧ mi.modifications_allowed = false) ∧
    (invalid_reason MENU_ITEMS item = some .INVALID_MODIFICATIONS ↔
      ∃ mi, MENU_ITEMS item.name = some mi ∧ item.quantity ≤ mi.available_quantity ∧
        item.modifications ≠ [] ∧ mi.modifications_allowed = true ∧
        ∃ x ∈ item.modifications, x ∉ mi.available_modifications) ∧
    ((validate_item MENU_ITEMS item).is_valid = true ↔
      ∃ mi, MENU_ITEMS item.name = some mi ∧ item.quantity ≤ mi.available_quantity ∧
        (item.modifications = [] ∨ (mi.modifications_allowed = true ∧
          ∀ x ∈ item.modifications, x ∈ mi.available_modifications))) := by
  rcases hm : MENU_ITEMS item.name with _ | mi
  · rw [show (validate_item MENU_ITEMS item) = _ from validate_item_not_on_menu hm]
    simp [invalid_reason, validate_item_not_on_menu hm, hm]
  · by_cases h1 : mi.available_quantity < item.quantity
    · rw [show (validate_item MENU_ITEMS item) = _ from validate_item_out_of_stock hm h1]
      simp only [invalid_reason, validate_item_out_of_stock hm h1, hm]
      refine ⟨by simp, by simp, ?_, ?_, ?_, ?_⟩
      · simp only [Option.map_some', Option.some.injEq, Option.some.injEq, true_iff]
        exact ⟨mi, rfl, h1⟩
      · simp only [Option.map_some', Option.some.injEq, reduceCtorEq, false_iff, not_exists]
        rintro mi' ⟨hmi', hq, _⟩
        cases hmi'
        omega
      · simp only [Option.map_some', Option.some.injEq, reduceCtorEq, false_iff, not_exists]
        rintro mi' ⟨hmi', hq, _⟩
        cases hmi'
        omega
      · simp only [Bool.false_eq_true, false_iff, not_exists]
        rintro mi' ⟨hmi', hq, _⟩
        cases hmi'
        omega
    · push_neg at h1
      by_cases h2 : item.modifications ≠ [] ∧ mi.modifications_allowed = false
      · rw [show (validate_item MENU_ITEMS item) = _ from
          validate_item_mods_not_allowed hm h1 h2.1 h2.2]
        simp only [invalid_reason, validate_item_mods_not_allowed hm h1 h2.1 h2.2, hm]
        refine ⟨by simp, by simp, ?_, ?_, ?_, ?_⟩
        · simp only [Option.map_some', Option.some.injEq, reduceCtorEq, false_iff, not_exists]
          rintro mi' ⟨hmi', hq⟩
          cases hmi'
          omega
        · simp only [Option.map_some', Option.some.injEq, Option.some.injEq, true_iff]
          exact ⟨mi, rfl, h1, h2.1, h2.2⟩
        · simp only [Option.map_some', Option.some.injEq, reduceCtorEq, false_iff, not_exists]
          rintro mi' ⟨hmi', _, _, hall, _⟩
          cases hmi'
          rw [h2.2] at hall
          exact absurd hall (by simp)
        · simp only [Bool.false_eq_true, false_iff, not_exists]
          rintro mi' ⟨hmi', _, hmods⟩
          cases hmi'
          rcases hmods with hnil | ⟨hall, _⟩
          · exact h2.1 hnil
          · rw [h2.2] at hall
            exact absurd hall (by simp)
      · by_cases h3 : item.modifications ≠ [] ∧
          ∃ x ∈ item.modifications, x ∉ mi.available_modifications
        · have hall : mi.modifications_allowed = true := by
            rcases Bool.eq_false_or_eq_true mi.modifications_allowed with ht | hf
            · exact ht
            · exact absurd ⟨h3.1, hf⟩ h2
          rw [show (validate_item MENU_ITEMS item) = _ from
            validate_item_invalid_mods hm h1 h3.1 hall h3.2]
          simp only [invalid_reason, validate_item_invalid_mods hm h1 h3.1 hall h3.2, hm]
          refine ⟨by simp, by simp, ?_, ?_, ?_, ?_⟩
          · simp only [Option.map_some', Option.some.injEq, reduceCtorEq, false_iff, not_exists]
            rintro mi' ⟨hmi', hq⟩
            cases hmi'
            omega
          · simp only [Option.map_some', Option.some.injEq, reduceCtorEq, false_iff, not_exists]
            rintro mi' ⟨hmi', _, _, hallf⟩
            cases hmi'
            rw [hall] at hallf
            exact absurd hallf (by simp)
          · simp only [Option.map_some', Option.some.injEq, Option.some.injEq, true_iff]
            exact ⟨mi, rfl, h1, h3.1, hall, h3.2⟩
          · simp only [Bool.false_eq_true, false_iff, not_exists]
            rintro mi' ⟨hmi', _, hmods⟩
            cases hmi'
            rcases hmods with hnil | ⟨_, hallmem⟩
            · exact h3.1 hnil
            · rcases h3.2 with ⟨x, hx, hnx⟩
              exact hnx (hallmem x hx)
        · have hok : item.modifications = [] ∨ (mi.modifications_allowed = true ∧
              ∀ x ∈ item.modifications, x ∈ mi.available_modifications) := by
            by_cases hnil : item.modifications = []
            · exact Or.inl hnil
            · right
              have hall : mi.modifications_allowed = true := by
                rcases Bool.eq_false_or_eq_true mi.modifications_allowed with ht | hf
                · exact ht
                · exact absurd ⟨hnil, hf⟩ h2
              refine ⟨hall, ?_⟩
              intro x hx
              by_contra hnx
              exact h3 ⟨hnil, x, hx, hnx⟩
          rw [show (validate_item MENU_ITEMS item) = _ from validate_item_valid hm h1 hok]
          simp only [invalid_reason, validate_item_valid hm h1 hok, hm]
          refine ⟨by simp, by simp, by simp [h1], ?_, ?_, ?_⟩
          · simp only [Option.map_none', reduceCtorEq, false_iff, not_exists]
            rintro mi' ⟨hmi', _, hne, hallf⟩
            cases hmi'
            rcases hok with hnil | ⟨hall, _⟩
            · exact hne hnil
            · rw [hall] at hallf
              exact absurd hallf (by simp)
          · simp only [Option.map_none', reduceCtorEq, false_iff, not_exists]
            rintro mi' ⟨hmi', _, hne, _, x, hx, hnx⟩
            cases hmi'
            rcases hok with hnil | ⟨_, hallmem⟩
            · exact hne hnil
            · exact hnx (hallmem x hx)
          · simp only [true_iff]
            exact ⟨mi, rfl, h1, hok⟩

/-! ## Whole-order validation (C4) and pricing (C7) -/

/-- Every per-item verdict is well-shaped: a valid verdict carries the valid
item (whose name is on the menu) and no invalid item, an invalid verdict the
converse — so the two `assert ... is not None` checks in `_run` never fire. -/
theorem validate_item_shape (m : Menu) (i : OrderItem) :
    ((validate_item m i).is_valid = true ∧ (validate_item m i).invalid_item = none ∧
      ∃ v, (validate_item m i).valid_item = some v ∧ (m v.name).isSome = true) ∨
    ((validate_item m i).is_valid = false ∧ (validate_item m i).valid_item = none ∧
      ∃ iv, (validate_item m i).invalid_item = some iv) := by
  rcases hm : m i.name with _ | mi
  · rw [validate_item_not_on_menu hm]
    right
    exact ⟨rfl, rfl, _, rfl⟩
  · by_cases h1 : mi.available_quantity < i.quantity
    · rw [validate_item_out_of_stock hm h1]
      right
      exact ⟨rfl, rfl, _, rfl⟩
    · push_neg at h1
      by_cases h2 : i.modifications ≠ [] ∧ mi.modifications_allowed = false
      · rw [validate_item_mods_not_allowed hm h1 h2.1 h2.2]
        right
        exact ⟨rfl, rfl, _, rfl⟩
      · by_cases h3 : i.modifications ≠ [] ∧
          ∃ x ∈ i.modifications, x ∉ mi.available_modifications
        · have hall : mi.modifications_allowed = true := by
            rcases Bool.eq_false_or_eq_true mi.modifications_allowed with ht | hf
            · exact ht
            · exact absurd ⟨h3.1, hf⟩ h2
          rw [validate_item_invalid_mods hm h1 h3.1 hall h3.2]
          right
          exact ⟨rfl, rfl, _, rfl⟩
        · have hok : i.modifications = [] ∨ (mi.modifications_allowed = true ∧
              ∀ x ∈ i.modifications, x ∈ mi.available_modifications) := by
            by_cases hnil : i.modifications = []
            · exact Or.inl hnil
            · right
              have hall : mi.modifications_allowed = true := by
                rcases Bool.eq_false_or_eq_true mi.modifications_allowed with ht | hf
                · exact ht
                · exact absurd ⟨hnil, hf⟩ h2
              refine ⟨hall, ?_⟩
              intro x hx
              by_contra hnx
              exact h3 ⟨hnil, x, hx, hnx⟩
          rw [validate_item_valid hm h1 hok]
          left
          refine ⟨rfl, rfl, _, rfl, ?_⟩
          simp [hm]

theorem invalid_item_none_iff (m : Menu) (i : OrderItem) :
    (validate_item m i).invalid_item = none ↔ (validate_item m i).is_valid = true := by
  rcases validate_item_shape m i with ⟨hv, hinv, _⟩ | ⟨hv, _, iv, hinv⟩
  · simp [hv, hinv]
  · simp [hv, hinv]

theorem collect_items_map (m : Menu) : ∀ items : List OrderItem,
    collect_items (items.map (validate_item m)) =
      .ok (items.filterMap (fun i => (validate_item m i).valid_item),
           items.filterMap (fun i => (validate_item m i).invalid_item)) := by
  intro items
  induction items with
  | nil => rfl
  | cons i rest ih =>
    rcases validate_item_shape m i with ⟨hv, hinv, v, hval, _⟩ | ⟨hv, hval, iv, hinv⟩
    · simp only [List.map_cons, collect_items, hv, if_pos, hval, ih, List.filterMap_cons,
        hinv]
      rfl
    · simp only [List.map_cons, collect_items, hv, Bool.false_eq_true, if_false, hval, ih,
        List.filterMap_cons, hinv]
      rfl

theorem mem_valid_filterMap_isSome (m : Menu) (items : List OrderItem) :
    ∀ v ∈ items.filterMap (fun i => (validate_item m i).valid_item),
      (m v.name).isSome = true := by
  intro v hv
  rw [List.mem_filterMap] at hv
  rcases hv with ⟨i, _, hival⟩
  rcases validate_item_shape m i with ⟨_, _, v', hval, hsome⟩ | ⟨_, hval, _⟩
  · rw [hval] at hival
    cases hival
    exact hsome
  · rw [hval] at hival
    cases hival

/-- Unit price of a catalog item (0 placeholder off the catalog). -/
def priceOfItem (m : Menu) (name : String) : Nat :=
  ((m name).map MenuItem.priceCents).getD 0

/-- Preparation time of a catalog item (0 placeholder off the catalog). -/
def prepOfItem (m : Menu) (name : String) : Nat :=
  ((m name).map MenuItem.preparation_time).getD 0

/-- Spec-side total: Σ (unit price × accepted quantity) over the valid
items. -/
def valid_items_total (m : Menu) (vs : List ValidItem) : Nat :=
  (vs.map (fun v => priceOfItem m v.name * v.valid_quantity)).sum

/-- Spec-side preparation time: the maximum of the valid items' preparation
times. -/
def valid_items_max_prep (m : Menu) (vs : List ValidItem) : Nat :=
  (vs.map (fun v => prepOfItem m v.name)).foldr max 0

theorem calc_details_go_spec (m : Menu) : ∀ (l : List PricedItem),
    (∀ it ∈ l, (m it.name).isSome = true) → ∀ (t p : Nat),
    calc_details_go m l t p =
      .ok (t + (l.map (fun it => priceOfItem m it.name * it.qty)).sum,
           max p ((l.map (fun it => prepOfItem m it.name)).foldr max 0)) := by
  intro l
  induction l with
  | nil => intro _ t p; simp [calc_details_go]
  | cons it rest ih =>
    intro h t p
    rcases hmi : m it.name with _ | mi
    · have hmem := h it (List.mem_cons_self _ _)
      rw [hmi] at hmem
      simp at hmem
    · simp only [calc_details_go, hmi]
      rw [ih (fun x hx => h x (List.mem_cons_of_mem _ hx))]
      simp only [List.map_cons, List.sum_cons, List.foldr_cons, Except.ok.injEq,
        Prod.mk.injEq, priceOfItem, prepOfItem, hmi, Option.map_some', Option.getD_some]
      constructor
      · omega
      · exact Nat.max_assoc p mi.preparation_time _

theorem calculate_order_details_valid_items (m : Menu) (vs : List ValidItem)
    (h : ∀ v ∈ vs, (m v.name).isSome = true) :
    calculate_order_details m (vs.map PricedItem.vi) =
      .ok { total_price := format_currency (valid_items_total m vs),
            max_preparation_time := valid_items_max_prep m vs } := by
  have hmem : ∀ it ∈ vs.map PricedItem.vi, (m it.name).isSome = true := by
    intro it hit
    rw [List.mem_map] at hit
    rcases hit with ⟨v, hv, rfl⟩
    exact h v hv
  unfold calculate_order_details
  rw [calc_details_go_spec m _ hmem 0 0]
  have htot : ((vs.map PricedItem.vi).map (fun it => priceOfItem m it.name * it.qty)).sum =
      valid_items_total m vs := by
    simp [valid_items_total, List.map_map, Function.comp_def, PricedItem.name, PricedItem.qty]
  have hprep : ((vs.map PricedItem.vi).map (fun it => prepOfItem m it.name)).foldr max 0 =
      valid_items_max_prep m vs := by
    simp [valid_items_max_prep, List.map_map, Function.comp_def, PricedItem.name]
  rw [htot, hprep, Nat.zero_add, Nat.zero_max]
  rfl

theorem handle_valid_order_spec (m : Menu) (order : Order) (vs : List ValidItem)
    (h : ∀ v ∈ vs, (m v.name).isSome = true) :
    ∃ upd, handle_valid_order m order vs = .ok upd ∧
      upd.validated_order = some order ∧
      upd.validation_result.status = .SUCCESS ∧
      upd.validation_result.details =
        .success { valid_room := toString order.room, valid_items := vs } ∧
      upd.validation_result.total_price =
        some (format_currency (valid_items_total m vs)) ∧
      upd.validation_result.preparation_time =
        some (valid_items_max_prep m vs) := by
  unfold handle_valid_order
  rw [calculate_order_details_valid_items m vs h]
  exact ⟨_, rfl, rfl, rfl, rfl, rfl, rfl⟩

theorem except_ok_bind {ε α β : Type} (a : α) (f : α → Except ε β) :
    ((Except.ok a : Except ε α) >>= f) = f a := rfl

theorem handle_invalid_order_spec (engine : EngineOutcome) (b : Bool) (order : Order)
    (vs : List ValidItem) (ivs : List InvalidItem) :
    ∃ upd, handle_invalid_order engine b order vs ivs = .ok upd ∧
      upd.validated_order = none ∧
      upd.validation_result.status = .ERROR := by
  unfold handle_invalid_order
  cases b <;>
  · simp only [mkOrderValidationResult, ValidationDetailsOrError.get_valid_room,
      ValidationDetailsOrError.get_invalid_room, Bool.false_eq_true, if_true, if_false,
      ite_true, ite_false, Option.isSome_some, Option.isSome_none, Option.isNone_some,
      Option.isNone_none, Bool.and_true, Bool.and_false, Bool.true_and, Bool.false_and]
    rw [except_ok_bind]
    split
    · split
      · rw [except_ok_bind]
        exact ⟨_, rfl, rfl, rfl⟩
      · exact ⟨_, rfl, rfl, rfl⟩
    · exact ⟨_, rfl, rfl, rfl⟩

theorem except_error_bind {ε α β : Type} (e : ε) (f : α → Except ε β) :
    ((Except.error e : Except ε α) >>= f) = .error e := rfl

/-- C4: under the `Order` model's room constraint, validation always returns
a result, and its status is SUCCESS iff the room is valid (unit number at
most 20) and every item is individually valid; otherwise it is ERROR — no
partial acceptance. -/
theorem order_validation_success_iff (MENU_ITEMS : Menu) (engine : EngineOutcome)
    (order : Order) (h1 : 100 ≤ order.room) (h2 : order.room ≤ 399) :
    ∃ upd, OrderValidatorTool.run MENU_ITEMS engine order = .ok upd ∧
      upd.validation_result.status =
        (if (0 ≤ order.room % 100 ∧ order.room % 100 ≤ 20) ∧
            (∀ i ∈ order.items, (validate_item MENU_ITEMS i).is_valid = true)
         then Status.SUCCESS else Status.ERROR) := by
  have hroom : validate_room order.room =
      .ok (decide (0 ≤ order.room % 100 ∧ order.room % 100 ≤ 20)) := by
    unfold validate_room
    rw [if_pos ⟨h1, h2⟩]
  have hiv : (order.items.filterMap (fun i => (validate_item MENU_ITEMS i).invalid_item)
        = []) ↔
      ∀ i ∈ order.items, (validate_item MENU_ITEMS i).is_valid = true := by
    rw [List.filterMap_eq_nil_iff]
    exact forall₂_congr (fun i _ => invalid_item_none_iff MENU_ITEMS i)
  unfold OrderValidatorTool.run
  rw [hroom, except_ok_bind]
  dsimp only
  rw [collect_items_map, except_ok_bind]
  dsimp only
  by_cases hc1 : 0 ≤ order.room % 100 ∧ order.room % 100 ≤ 20
  · by_cases hall : ∀ i ∈ order.items, (validate_item MENU_ITEMS i).is_valid = true
    · rw [if_pos ⟨by simpa using hc1, hiv.mpr hall⟩]
      obtain ⟨upd, hok, _, hstat, _, _, _⟩ :=
        handle_valid_order_spec MENU_ITEMS order _
          (mem_valid_filterMap_isSome MENU_ITEMS order.items)
      refine ⟨upd, hok, ?_⟩
      rw [hstat, if_pos ⟨hc1, hall⟩]
    · rw [if_neg (fun hp => hall (hiv.mp hp.2))]
      obtain ⟨upd, hok, _, hstat⟩ := handle_invalid_order_spec engine _ order _ _
      refine ⟨upd, hok, ?_⟩
      rw [hstat, if_neg (fun hp => hall hp.2)]
  · rw [if_neg (fun hp => hc1 (by simpa using hp.1))]
    obtain ⟨upd, hok, _, hstat⟩ := handle_invalid_order_spec engine _ order _ _
    refine ⟨upd, hok, ?_⟩
    rw [hstat, if_neg (fun hp => hc1 hp.1)]

/-- C7: whenever a validation run returns a SUCCESS result, that result's
total price is the 2-decimal currency rendering of Σ (unit price × accepted
quantity) over the accepted valid items, and its preparation time is the
maximum (not the sum) of their preparation times. -/
theorem validator_success_pricing (MENU_ITEMS : Menu) (engine : EngineOutcome)
    (order : Order) (upd : StateUpdate)
    (hrun : OrderValidatorTool.run MENU_ITEMS engine order = .ok upd)
    (hs : upd.validation_result.status = Status.SUCCESS) :
    ∃ d, upd.validation_result.details = ValidationDetailsOrError.success d ∧
      upd.validation_result.total_price =
        some (format_currency (valid_items_total MENU_ITEMS d.valid_items)) ∧
      upd.validation_result.preparation_time =
        some (valid_items_max_prep MENU_ITEMS d.valid_items) := by
  unfold OrderValidatorTool.run at hrun
  rcases hv : validate_room order.room with msg | b
  · rw [hv, except_error_bind] at hrun
    cases hrun
  · rw [hv, except_ok_bind] at hrun
    dsimp only at hrun
    rw [collect_items_map, except_ok_bind] at hrun
    dsimp only at hrun
    by_cases hcond : (b = true) ∧
        (order.items.filterMap (fun i => (validate_item MENU_ITEMS i).invalid_item) = [])
    · rw [if_pos hcond] at hrun
      obtain ⟨upd', hok, _, hstat, hdet, htp, hpt⟩ :=
        handle_valid_order_spec MENU_ITEMS order _
          (mem_valid_filterMap_isSome MENU_ITEMS order.items)
      rw [hok] at hrun
      injection hrun with hupd
      subst hupd
      exact ⟨_, hdet, htp, hpt⟩
    · rw [if_neg hcond] at hrun
      obtain ⟨upd', hok, _, hstat⟩ := handle_invalid_order_spec engine b order _ _
      rw [hok] at hrun
      injection hrun with hupd
      subst hupd
      rw [hstat] at hs
      cases hs

/-- A small concrete catalog for witnesses (two items, one allowing
modifications, one not). -/
def TEST_MENU : Menu := fun name =>
  if name = "Club Sandwich" then
    some { name := "Club Sandwich", priceCents := 1500, category := "Main",
           modifications_allowed := true,
           available_modifications := ["extra bacon", "no tomato"],
           preparation_time := 15, available_quantity := 10 }
  else if name = "Still Water" then
    some { name := "Still Water", priceCents := 500, category := "Beverage",
           modifications_allowed := false,
           preparation_time := 1, available_quantity := 30 }
  else none

/-- A concrete order used by witnesses. -/
def sample_order : Order :=
  { room := 101, items := [{ name := "Club Sandwich", quantity := 1 }] }

/-- Witness for C4 at a concrete menu and order. -/
theorem order_validation_success_iff_witness :
    ∃ upd, OrderValidatorTool.run TEST_MENU EngineOutcome.malformed sample_order = .ok upd ∧
      upd.validation_result.status =
        (if (0 ≤ sample_order.room % 100 ∧ sample_order.room % 100 ≤ 20) ∧
            (∀ i ∈ sample_order.items, (validate_item TEST_MENU i).is_valid = true)
         then Status.SUCCESS else Status.ERROR) :=
  order_validation_success_iff TEST_MENU EngineOutcome.malformed sample_order
    (by decide) (by decide)

/-- Witness for C7 at a concrete menu and order whose validation succeeds. -/
theorem validator_success_pricing_witness :
    ∃ upd, OrderValidatorTool.run TEST_MENU EngineOutcome.malformed sample_order = .ok upd ∧
      ∃ d, upd.validation_result.details = ValidationDetailsOrError.success d ∧
        upd.validation_result.total_price =
          some (format_currency (valid_items_total TEST_MENU d.valid_items)) ∧
        upd.validation_result.preparation_time =
          some (valid_items_max_prep TEST_MENU d.valid_items) := by
  refine ⟨_, rfl, validator_success_pricing TEST_MENU EngineOutcome.malformed
    sample_order _ rfl (by rfl)⟩

/-! ## Order placement (C1) and the gateway boundary (C3) -/

/-- C1 amended: the placer raises its ValueError exactly when the state lacks
a validated order or lacks a validation result (of any status), and calls the
gateway exactly otherwise; the rejection happens before any gateway call, but
the validation result's status is never examined. -/
theorem order_placer_presence_check (gateway : Order → OrderResponse)
    (state : OrderState) :
    ((OrderPlacerTool.run gateway state).1.isOk =
      (state.validated_order.isSome && state.validation_result.isSome)) ∧
    ((OrderPlacerTool.run gateway state).2 =
      (state.validated_order.isSome && state.validation_result.isSome)) := by
  rcases state with ⟨_ | o, _ | r, c⟩
  · exact ⟨rfl, rfl⟩
  · exact ⟨rfl, rfl⟩
  · exact ⟨rfl, rfl⟩
  · rcases hg : gateway o with g | b <;>
      simp [OrderPlacerTool.run, hg, Except.isOk, Except.toBool]

/-- An ERROR-status validation result (as the validator produces for a bad
room). -/
def error_validation_result : OrderValidationResult :=
  { status := .ERROR,
    response := "Room number is invalid. Please ask the user to clarify the room number.",
    details := .error
      { valid_room := none, valid_items := [],
        invalid_room := some "500", invalid_items := [], suggestions := none },
    total_price := none, preparation_time := none }

/-- A state carrying both a validated order and an ERROR-status validation
result — it lacks a SUCCESS validation result. -/
def error_status_state : OrderState :=
  { validated_order := some sample_order,
    validation_result := some error_validation_result,
    sequential_error_count := 0 }

/-- A gateway stub whose reply is irrelevant to the test. -/
def const_bad_gateway : Order → OrderResponse :=
  fun _ => .bad { message := "Kitchen is currently at capacity. Please try again in 15 minutes." }

/-- C1 counterexample: a state whose validation result has status ERROR (but
which still carries a validated order) is NOT rejected — the placer calls the
gateway and returns an ordinary tool message, contradicting the claim that a
state lacking a SUCCESS validation result fails before any gateway call. -/
theorem order_placer_error_status_not_rejected :
    error_status_state.validation_result = some error_validation_result ∧
    error_validation_result.status = Status.ERROR ∧
    (OrderPlacerTool.run const_bad_gateway error_status_state).2 = true ∧
    (OrderPlacerTool.run const_bad_gateway error_status_state).1.isOk = true :=
  ⟨rfl, rfl, rfl, rfl⟩

/-- C3 (code bug): with failure simulation enabled and a connection-failure
event drawn, `place_order` does not fold the failure into a
`BadOrderResponse`: the `except RoomServiceAPIError | KitchenOverloadedError`
clause names a union type, which cannot catch, so a `TypeError` escapes the
gateway boundary.  Without a drawn failure event the happy path returns a
`GoodOrderResponse`. -/
theorem place_order_exception_escapes :
    RoomServiceAPI.place_order TEST_MENU
        { simulate_failures := true, simulate_latency := true }
        { connection_failure := true, kitchen_overload := false } 0 sample_order =
      .error (.typeError
        "catching classes that do not inherit from BaseException is not allowed") ∧
    simulate_failure_events { simulate_failures := true, simulate_latency := true }
        { connection_failure := true, kitchen_overload := false } =
      some (.roomServiceAPIError "Failed to connect to Room Service API") ∧
    (∃ g c, RoomServiceAPI.place_order TEST_MENU
        { simulate_failures := true, simulate_latency := true }
        { connection_failure := false, kitchen_overload := false } 0 sample_order =
      .ok (.good g, c)) :=
  ⟨rfl, rfl, _, _, rfl⟩

/-! ## Suggestion enrichment (C9) -/

/-- The deterministic suggestions built for the MODIFICATIONS_NOT_ALLOWED
items (those with a present valid quantity) of an error detail. -/
def det_suggestions (d : ValidationError) : List SingleSuggestion :=
  ((partition (fun item => item.reason == InvalidItemReason.MODIFICATIONS_NOT_ALLOWED)
      d.invalid_items).1).filterMap
    (fun invalid_item =>
      match invalid_item.valid_quantity with
      | none => none
      | some q => some (deterministic_suggestion invalid_item q))

/-- C9 amended: MODIFICATIONS_NOT_ALLOWED items carrying a valid quantity get
the deterministic suggestion (same item, quantity preserved, modifications
cleared), and when every invalid item is such, the engine is not invoked and
the deterministic list is returned whatever the engine would do; but when
other invalid items are present the engine is invoked for them, and a
malformed engine reply makes the whole call return no suggestions at all,
dropping the deterministic ones (and items lacking a valid quantity are
skipped). -/
theorem menu_suggestions_deterministic_amended (vr : OrderValidationResult)
    (d : ValidationError) (engine : EngineOutcome)
    (hd : vr.details = .error d) (hne : d.invalid_items ≠ []) :
    (((partition (fun item => item.reason == InvalidItemReason.MODIFICATIONS_NOT_ALLOWED)
        d.invalid_items).2 = []) →
      get_menu_suggestions engine vr = (.ok (some (det_suggestions d)), false)) ∧
    (∀ s, engine = .structured s →
      ((partition (fun item => item.reason == InvalidItemReason.MODIFICATIONS_NOT_ALLOWED)
        d.invalid_items).2 ≠ []) →
      get_menu_suggestions engine vr = (.ok (some (det_suggestions d ++ s)), true)) ∧
    (engine = .malformed →
      ((partition (fun item => item.reason == InvalidItemReason.MODIFICATIONS_NOT_ALLOWED)
        d.invalid_items).2 ≠ []) →
      get_menu_suggestions engine vr = (.ok none, true)) ∧
    (∀ it q, it ∈ d.invalid_items → it.reason = .MODIFICATIONS_NOT_ALLOWED →
      it.valid_quantity = some q →
      deterministic_suggestion it q ∈ det_suggestions d) := by
  have hstatus : (vr.status.value == "success") = false := by
    cases vr.status <;> rfl
  have hlen : ¬(d.invalid_items.length = 0) := by
    intro h
    exact hne (List.length_eq_zero.mp h)
  rcases hp : partition
      (fun item => item.reason == InvalidItemReason.MODIFICATIONS_NOT_ALLOWED)
      d.invalid_items with ⟨mods_na, others⟩
  have hdet : det_suggestions d = mods_na.filterMap
      (fun invalid_item =>
        match invalid_item.valid_quantity with
        | none => none
        | some q => some (deterministic_suggestion invalid_item q)) := by
    unfold det_suggestions
    rw [hp]
  have hrun : ∀ e : EngineOutcome, get_menu_suggestions e vr =
      (if others.length > 0 then
        match e with
        | .raised msg => (Except.error msg, true)
        | .malformed => (Except.ok none, true)
        | .structured s => (Except.ok (some ((mods_na.filterMap
            (fun invalid_item =>
              match invalid_item.valid_quantity with
              | none => none
              | some q => some (deterministic_suggestion invalid_item q))) ++ s)), true)
      else (Except.ok (some (mods_na.filterMap
        (fun invalid_item =>
          match invalid_item.valid_quantity with
          | none => none
          | some q => some (deterministic_suggestion invalid_item q)))), false)) := by
    intro e
    unfold get_menu_suggestions
    rw [hstatus, if_neg (by simp), hd]
    dsimp only
    rw [if_neg hlen, hp]
  have hp1 : (partition (fun item => item.reason == InvalidItemReason.MODIFICATIONS_NOT_ALLOWED)
      d.invalid_items).1 = mods_na := by
    rw [hp]
  have hp2 : (partition (fun item => item.reason == InvalidItemReason.MODIFICATIONS_NOT_ALLOWED)
      d.invalid_items).2 = others := by
    rw [hp]
  refine ⟨?_, ?_, ?_, ?_⟩
  · intro hothers
    rw [hp2] at hothers
    rw [hrun engine, if_neg (by simp [hothers]), hdet]
  · intro s hs hothers
    rw [hp2] at hothers
    have hgt : others.length > 0 := by
      cases others
      · exact absurd rfl hothers
      · simp
    rw [hrun engine, if_pos hgt, hs, hdet]
  · intro hs hothers
    rw [hp2] at hothers
    have hgt : others.length > 0 := by
      cases others
      · exact absurd rfl hothers
      · simp
    rw [hrun engine, if_pos hgt, hs]
  · intro it q hit hreason hq
    have hpe := partition_eq_filter
      (fun item => item.reason == InvalidItemReason.MODIFICATIONS_NOT_ALLOWED)
      d.invalid_items
    rw [hp] at hpe
    injection hpe with hA hB
    rw [hdet, hA, List.mem_filterMap]
    refine ⟨it, ?_, by rw [hq]⟩
    rw [List.mem_filter]
    exact ⟨hit, by simp [hreason]⟩

/-- An invalid item rejected solely for MODIFICATIONS_NOT_ALLOWED, as the
validator produces it. -/
def mods_item : InvalidItem :=
  { name := "Still Water", valid_quantity := some 2, valid_modifications := some [],
    invalid_modifications := some ["extra ice"], reason := .MODIFICATIONS_NOT_ALLOWED }

/-- An error detail whose only invalid item is `mods_item`. -/
def c9_error_detail : ValidationError :=
  { valid_room := some "101", valid_items := [], invalid_room := none,
    invalid_items := [mods_item], suggestions := none }

/-- An ERROR validation result over `c9_error_detail`. -/
def c9_result : OrderValidationResult :=
  { status := .ERROR,
    response := "Some requested items cannot be prepared. Please ask the user to clarify the items they would like to order.",
    details := .error c9_error_detail,
    total_price := none, preparation_time := none }

/-- Witness for the amended C9: with only a MODIFICATIONS_NOT_ALLOWED item in
the call, the deterministic suggestions are returned and the engine is not
invoked even when it would misbehave. -/
theorem menu_suggestions_deterministic_amended_witness :
    get_menu_suggestions EngineOutcome.malformed c9_result =
      (.ok (some (det_suggestions c9_error_detail)), false) :=
  (menu_suggestions_deterministic_amended c9_result c9_error_detail
    EngineOutcome.malformed rfl (by decide)).1 (by decide)

/-- An error detail mixing `mods_item` with a NOT_ON_MENU item. -/
def c9_mixed_detail : ValidationError :=
  { valid_room := some "101", valid_items := [], invalid_room := none,
    invalid_items := [mods_item, { name := "Unknown Dish", reason := .NOT_ON_MENU }],
    suggestions := none }

/-- An ERROR validation result over `c9_mixed_detail`. -/
def c9_mixed_result : OrderValidationResult :=
  { status := .ERROR,
    response := "Some requested items cannot be prepared. Please ask the user to clarify the items they would like to order.",
    details := .error c9_mixed_detail,
    total_price := none, preparation_time := none }

/-- C9 counterexample: `mods_item` has reason MODIFICATIONS_NOT_ALLOWED and
is among the invalid items, yet when another invalid item is present and the
engine reply is malformed the whole call returns `None` — `mods_item`
receives no suggestion, refuting "... regardless of what other invalid items
are present in the same call or how the engine call for those other items
fares". -/
theorem menu_suggestions_mods_item_dropped :
    mods_item.reason = InvalidItemReason.MODIFICATIONS_NOT_ALLOWED ∧
    mods_item ∈ c9_mixed_detail.invalid_items ∧
    (get_menu_suggestions EngineOutcome.malformed c9_mixed_result).1 =
      Except.ok none :=
  ⟨rfl, by decide, rfl⟩

/-- Witness for C10 at the counter values 0 and 1. -/
theorem get_order_id_monotone_unique_witness :
    (get_order_id 0).1 = 1 ∧
    numericPart (get_order_id 0).2 = 1 ∧
    (get_order_id 0).2.data.take 6 = "ORDER-".data ∧
    4 ≤ ((get_order_id 0).2.data.drop 6).length ∧
    numericPart (get_order_id 0).2 < numericPart (get_order_id 1).2 ∧
    (get_order_id 0).2 ≠ (get_order_id 1).2 :=
  get_order_id_monotone_unique 0 1 (by decide)

end RoomService
